import Mathlib

/-!
Verification of the extraction engine of the `thegraph-data-extraction`
repository: a shallow embedding in Lean 4 of

  * the orchestrator (`internal/domain/service/extraction_service.go`:
    `ExtractAll`, `executeQueryWithPagination`, `processResponse`),
  * the adaptive rate limiter (`internal/adapters/ratelimit/adaptive_limiter.go`),
  * the dynamic worker pool (`internal/adapters/worker` pool in
    `internal/adapters/graphql/client.go`'s companion file),
  * the cursor-persistence behaviour of the file repository
    (`internal/adapters/repository/file_repository.go`).

Modelling conventions:

  * Go `interface{}` trees decoded from GraphQL responses are modelled by the
    inductive `GoVal`; `map[string]interface{}` is an association list
    (`List (String × GoVal)`), a `nil` map is `Option.none`.
  * Go `float64` fields of the limiter are modelled by `ℚ` (exact arithmetic;
    all constants 0.5, 0.8, 0.95, 1.05, 0.7, 0.9, 0.1 are exact decimal
    fractions).  `time.Duration` values are modelled by `ℚ` (milliseconds).
  * Wall-clock timestamps (`time.Now()`) are outside the model; `uuid.New()`
    is modelled by an explicit supply `uuid : Nat → String` with a counter.
  * The GraphQL transport is an oracle `Nat → String → QueryOutcome`
    (call index × current cursor ↦ outcome); the rate limiter's `Wait` always
    succeeds in the model (no cancellation is exercised by the claims).
  * The unbounded Go pagination loop is given explicit fuel; `none` means the
    loop is still running after `fuel` iterations.
-/

/-- A decoded GraphQL value (`interface{}` after `encoding/json` decoding). -/
inductive GoVal where
  | str (s : String)
  | int (n : Int)
  | bool (b : Bool)
  | arr (elems : List GoVal)
  | obj (fields : List (String × GoVal))
  | null

/-- Go map lookup `m[key]` on a decoded object (first matching key). -/
def lookupField (fields : List (String × GoVal)) (key : String) : Option GoVal :=
  List.lookup key fields

/-- Go type assertion `v.(string)` with its `ok` flag: `none` when the value is
absent or not a string. -/
def asString : Option GoVal → Option String
  | some (GoVal.str s) => some s
  | _ => none

/-- Go type assertion `v.(bool)` with its `ok` flag. -/
def asBool : Option GoVal → Option Bool
  | some (GoVal.bool b) => some b
  | _ => none

/-- Go type assertion `v.([]interface\x7b\x7d)` with its `ok` flag. -/
def asArr : Option GoVal → Option (List GoVal)
  | some (GoVal.arr xs) => some xs
  | _ => none

/-- Go type assertion `v.(map[string]interface\x7b\x7d)` with its `ok` flag. -/
def asObj : Option GoVal → Option (List (String × GoVal))
  | some (GoVal.obj fs) => some fs
  | _ => none

/-- `entity.Entity` (domain/entity).  The wall-clock `Timestamp` field and the
unset `Cursor`/`MetaData` fields are outside the model. -/
structure Entity where
  id : String
  type : String
  deployment : String
  data : List (String × GoVal)

/-- The per-item loop of `ExtractionService.processResponse`
(extraction_service.go lines 281-305), processing the decoded array
`data[queryType]`.  Arguments: the remaining items, the current candidate
`nextCursor`, and the uuid-supply counter.  For each element that is an
object, the raw string `id` is read (`id, _ := itemMap["id"].(string)`); an
empty result synthesises a fresh UUID for the entity's ID; the candidate
cursor is overwritten exactly when the raw `id` field is a string
(`if cursor, ok := itemMap["id"].(string); ok`).  Non-object items are
skipped. -/
def processItems (ep qt : String) (uuid : Nat → String) :
    List GoVal → String → Nat → List Entity × String × Nat
  | [], cur, k => ([], cur, k)
  | item :: rest, cur, k =>
    match item with
    | GoVal.obj fields =>
      let rawId := asString (lookupField fields "id")
      let goId := rawId.getD ""
      let entId := if goId = "" then uuid k else goId
      let k1 := if goId = "" then k + 1 else k
      let cur1 := rawId.getD cur
      let e : Entity := { id := entId, type := qt, deployment := ep, data := fields }
      let r := processItems ep qt uuid rest cur1 k1
      (e :: r.1, r.2)
    | _ => processItems ep qt uuid rest cur k

/-- Result triple of `processResponse`. -/
structure ProcResult where
  entities : List Entity
  nextCursor : String
  hasMore : Bool

/-- `ExtractionService.processResponse` (extraction_service.go lines 271-322).
`data` is the decoded `response.Data` map (`none` models a nil map).  After the
item loop, an optional `pageInfo` object overrides `hasMore`
(`hasNextPage`) and, when non-empty, `nextCursor` (`endCursor`); without
`pageInfo`, `hasMore` is inferred from `len(entities) >= pageSize`. -/
def processResponse (pageSize : Nat) (ep qt : String) (uuid : Nat → String)
    (k : Nat) (data : Option (List (String × GoVal))) : ProcResult × Nat :=
  match data with
  | none => ({ entities := [], nextCursor := "", hasMore := false }, k)
  | some d =>
    let r :=
      match asArr (lookupField d qt) with
      | some items => processItems ep qt uuid items "" k
      | none => ([], "", k)
    let ents := r.1
    let cur0 := r.2.1
    let k1 := r.2.2
    match asObj (lookupField d "pageInfo") with
    | some pi =>
      let hm :=
        match asBool (lookupField pi "hasNextPage") with
        | some b => b
        | none => false
      let cur1 :=
        match asString (lookupField pi "endCursor") with
        | some ec => if ec ≠ "" then ec else cur0
        | none => cur0
      ({ entities := ents, nextCursor := cur1, hasMore := hm }, k1)
    | none =>
      ({ entities := ents, nextCursor := cur0, hasMore := decide (pageSize ≤ ents.length) }, k1)

/-- One outcome of `client.Query`: transport error, or success with the decoded
`response.Data` map (`none` when the response carried no `data` tree). -/
inductive QueryOutcome where
  | err
  | ok (data : Option (List (String × GoVal)))

/-- The retry loop of `executeQueryWithPagination` (extraction_service.go lines
224-244): up to `attempts = maxRetries + 1` calls of `client.Query` on the same
query; stops at the first success.  Returns the decoded data (or `none` if all
attempts failed) and the advanced call index. -/
def attemptQuery (oracle : Nat → QueryOutcome) :
    Nat → Nat → Option (Option (List (String × GoVal))) × Nat
  | 0, i => (none, i)
  | n + 1, i =>
    match oracle i with
    | QueryOutcome.ok d => (some d, i + 1)
    | QueryOutcome.err => if n = 0 then (none, i + 1) else attemptQuery oracle n (i + 1)

/-- `ExtractionService.executeQueryWithPagination` (extraction_service.go lines
204-268), with explicit fuel for the unbounded `for hasMore` loop.  Per
iteration: rate-limiter `Wait` (always succeeds here), the retry loop, exactly
one `rateLimiter.Done(success, latency)` call (recorded in `dones`), then on
success `processResponse`; the loop continues exactly when
`hasMore && nextCursor != currentCursor && nextCursor != ""`, regenerating the
paginated query (captured by the oracle's cursor argument).  Returns the Go
function's result, the `Done` flags in order, and the number of `client.Query`
calls made; `none` means the loop was still running after `fuel` iterations. -/
def executeQueryWithPagination (oracle : Nat → String → QueryOutcome)
    (pageSize maxRetries : Nat) (ep qt : String) (uuid : Nat → String) :
    Nat → String → Nat → Nat → List Entity → List Bool →
    Option (Except Unit (List Entity) × List Bool × Nat)
  | 0, _, _, _, _, _ => none
  | fuel + 1, cur, ci, k, acc, dones =>
    let a := attemptQuery (fun i => oracle i cur) (maxRetries + 1) ci
    match a.1 with
    | none => some (Except.error (), dones ++ [false], a.2)
    | some d =>
      let p := processResponse pageSize ep qt uuid k d
      let acc1 := acc ++ p.1.entities
      let dones1 := dones ++ [true]
      if p.1.hasMore = true ∧ p.1.nextCursor ≠ cur ∧ p.1.nextCursor ≠ "" then
        executeQueryWithPagination oracle pageSize maxRetries ep qt uuid
          fuel p.1.nextCursor a.2 p.2 acc1 dones1
      else
        some (Except.ok acc1, dones1, a.2)

/-- Configuration of `NewAdaptiveLimiter` (adaptive_limiter.go lines 29-34).
`burst` only parametrises the token bucket, which is outside the model. -/
structure AdaptiveLimiterConfig where
  initialRate : ℚ
  minRate : ℚ
  maxRate : ℚ
  burst : Int

/-- The mutable state of `AdaptiveLimiter` (adaptive_limiter.go lines 13-26).
The `rate.Limiter` token bucket is outside the model; `resetAt` is modelled
relative to the current instant by `resetIsZero` (`resetAt.IsZero()`) and
`untilReset` (`time.Until(resetAt)`, in seconds). -/
structure AdaptiveLimiter where
  minRate : ℚ
  maxRate : ℚ
  currentRate : ℚ
  successRate : ℚ
  latencies : List ℚ
  latencyIndex : Nat
  latencySize : Nat
  remaining : Int
  resetIsZero : Bool
  untilReset : ℚ

/-- `NewAdaptiveLimiter` (adaptive_limiter.go lines 37-71): defaults for
non-positive inputs, then the two consistency fix-ups, then the initial
state with success EMA 1.0 and a 100-slot zeroed latency ring. -/
def newAdaptiveLimiter (c : AdaptiveLimiterConfig) : AdaptiveLimiter :=
  let ir := if c.initialRate ≤ 0 then 5 else c.initialRate
  let mn := if c.minRate ≤ 0 then 1 else c.minRate
  let mx := if c.maxRate ≤ 0 then 50 else c.maxRate
  let ir2 := if mn > ir then mn else ir
  let mx2 := if mx < ir2 then ir2 else mx
  { minRate := mn, maxRate := mx2, currentRate := ir2, successRate := 1,
    latencies := List.replicate 100 0, latencyIndex := 0, latencySize := 100,
    remaining := 0, resetIsZero := true, untilReset := 0 }

/-- `recordLatency` (adaptive_limiter.go lines 110-116): write into the ring
and advance the index modulo the ring size.  Latencies are in milliseconds. -/
def AdaptiveLimiter.recordLatency (l : AdaptiveLimiter) (latency : ℚ) : AdaptiveLimiter :=
  { l with latencies := l.latencies.set l.latencyIndex latency,
           latencyIndex := (l.latencyIndex + 1) % l.latencySize }

/-- `getAverageLatency` (adaptive_limiter.go lines 119-138): average of the
strictly positive slots, 0 when none.  (Go divides `time.Duration` integers;
the model divides exactly in `ℚ`, which only shifts branch thresholds by
sub-nanosecond amounts.) -/
def AdaptiveLimiter.getAverageLatency (l : AdaptiveLimiter) : ℚ :=
  let pos := l.latencies.filter (fun lat => decide (0 < lat))
  if pos.length = 0 then 0 else pos.sum / (pos.length : ℚ)

/-- `adjustRate` (adaptive_limiter.go lines 141-204).  The Go early returns
become nested conditionals: on failure multiply by 0.5 (EMA < 0.7) or 0.8 and
floor at `minRate`; on success with average latency above 500 ms multiply by
0.95 and floor; on success with EMA above 0.95 and average latency below
200 ms multiply by 1.05 and cap at `maxRate`; otherwise unchanged. -/
def AdaptiveLimiter.adjustRate (l : AdaptiveLimiter) (success : Bool) : AdaptiveLimiter :=
  let avgLatency := l.getAverageLatency
  if success = false then
    let c := if l.successRate < 7/10 then l.currentRate * (1/2) else l.currentRate * (4/5)
    let c2 := if c < l.minRate then l.minRate else c
    { l with currentRate := c2 }
  else if 500 < avgLatency then
    let c := l.currentRate * (19/20)
    let c2 := if c < l.minRate then l.minRate else c
    { l with currentRate := c2 }
  else if 19/20 < l.successRate ∧ avgLatency < 200 then
    let c := l.currentRate * (21/20)
    let c2 := if l.maxRate < c then l.maxRate else c
    { l with currentRate := c2 }
  else l

/-- `Done` (adaptive_limiter.go lines 95-107): record the latency, update the
success EMA by `ema ← 0.9·ema + 0.1·(success ? 1 : 0)`, then `adjustRate`. -/
def AdaptiveLimiter.done (l : AdaptiveLimiter) (success : Bool) (latency : ℚ) :
    AdaptiveLimiter :=
  let l1 := l.recordLatency latency
  let l2 := { l1 with
    successRate := (9/10) * l1.successRate + (1/10) * (if success then 1 else 0) }
  l2.adjustRate success

/-- `UpdateRateLimit` (adaptive_limiter.go lines 225-264): store the
server-reported values; if `remaining < 5` and the reset is non-zero and
strictly more than 5 seconds away, snap `currentRate` to `minRate`; otherwise,
for a positive server rate limit, lower `maxRate` to 80 % of it (never raise)
and clamp `currentRate` to the new maximum. -/
def AdaptiveLimiter.updateRateLimit (l : AdaptiveLimiter) (rateLimit remaining : Int)
    (resetIsZero : Bool) (untilReset : ℚ) : AdaptiveLimiter :=
  let l1 := { l with remaining := remaining, resetIsZero := resetIsZero,
                     untilReset := untilReset }
  if remaining < 5 ∧ resetIsZero = false ∧ 5 < untilReset then
    { l1 with currentRate := l1.minRate }
  else if 0 < rateLimit then
    let suggestedMax := (rateLimit : ℚ) * (4/5)
    if suggestedMax < l1.maxRate then
      let cr := if suggestedMax < l1.currentRate then suggestedMax else l1.currentRate
      { l1 with maxRate := suggestedMax, currentRate := cr }
    else l1
  else l1

/-- Configuration of `NewDynamicPool` (worker pool source, `PoolConfig`).
The idle-timeout and adjust-period durations are outside the model. -/
structure PoolConfig where
  initialWorkers : Int
  minWorkers : Int
  maxWorkers : Int
  queueSize : Int

/-- Result of `DynamicPool.Submit`: `ok`, the "task queue is full" error, or
the "worker pool is closed" error. -/
inductive SubmitResult where
  | ok
  | queueFull
  | closedErr

/-- The state of `DynamicPool` (worker pool source).  Tasks are opaque units;
`wgCount` is the counter of the pool's `sync.WaitGroup` field `wg`.  The
source never calls `wg.Add` or `wg.Done` on this WaitGroup — its only use is
`p.wg.Wait()` inside `Wait` — so no modelled operation changes `wgCount`. -/
structure DynamicPool where
  closed : Bool
  queue : List Unit
  queueCap : Nat
  currentSize : Nat
  minWorkers : Nat
  maxWorkers : Nat
  wgCount : Nat
  totalTasks : Nat
  successTasks : Nat

/-- `NewDynamicPool` (worker pool source): defaults 4/2/20/100 for
non-positive inputs, then the two consistency fix-ups, then `initialWorkers`
workers are started.  The WaitGroup counter starts (and stays) at zero. -/
def newDynamicPool (c : PoolConfig) : DynamicPool :=
  let iw := if c.initialWorkers ≤ 0 then 4 else c.initialWorkers
  let mn := if c.minWorkers ≤ 0 then 2 else c.minWorkers
  let mx := if c.maxWorkers ≤ 0 then 20 else c.maxWorkers
  let qs := if c.queueSize ≤ 0 then 100 else c.queueSize
  let iw2 := if mn > iw then mn else iw
  let mx2 := if mx < iw2 then iw2 else mx
  { closed := false, queue := [], queueCap := qs.toNat, currentSize := iw2.toNat,
    minWorkers := mn.toNat, maxWorkers := mx2.toNat, wgCount := 0,
    totalTasks := 0, successTasks := 0 }

/-- `scaleUp` (worker pool source): starts workers while `i < count` and
`currentSize + i < maxWorkers`, where `currentSize` is read once at entry. -/
def DynamicPool.scaleUp (p : DynamicPool) (count : Nat) : DynamicPool :=
  { p with currentSize := p.currentSize + min count (p.maxWorkers - p.currentSize) }

/-- `Submit` (worker pool source): fail fast when closed; otherwise a
non-blocking enqueue; when the queue is full and the worker count is below the
maximum, one synchronous `scaleUp(1)` and exactly one non-blocking retry.
`drained` is the number of tasks workers removed from the queue between the
first attempt and the retry (0 in a sequential execution); both attempts are
non-blocking `select`s in the source, so a concurrent drain is the only way
the retry can succeed. -/
def DynamicPool.submit (p : DynamicPool) (drained : Nat) : DynamicPool × SubmitResult :=
  if p.closed = true then (p, SubmitResult.closedErr)
  else if p.queue.length < p.queueCap then
    ({ p with queue := p.queue ++ [()] }, SubmitResult.ok)
  else if p.currentSize < p.maxWorkers then
    let p1 := p.scaleUp 1
    let p2 := { p1 with queue := p1.queue.drop drained }
    if p2.queue.length < p2.queueCap then
      ({ p2 with queue := p2.queue ++ [()] }, SubmitResult.ok)
    else (p2, SubmitResult.queueFull)
  else (p, SubmitResult.queueFull)

/-- One worker loop turn (`runWorker` + `recordTaskCompletion` in the worker
pool source): take a task off the queue, execute it, update the counters.
Neither function touches the pool's WaitGroup. -/
def DynamicPool.workerStep (p : DynamicPool) (taskSucceeded : Bool) : DynamicPool :=
  match p.queue with
  | [] => p
  | _ :: rest =>
    { p with queue := rest, totalTasks := p.totalTasks + 1,
             successTasks := p.successTasks + (if taskSucceeded then 1 else 0) }

/-- `Close` (worker pool source): idempotent; marks the pool closed and stops
all workers.  It does not touch the WaitGroup. -/
def DynamicPool.close (p : DynamicPool) : DynamicPool :=
  if p.closed = true then p else { p with closed := true, currentSize := 0 }

/-- The pool operations reachable through the public surface, for stating
reachability facts about the WaitGroup counter. -/
inductive PoolOp where
  | submitTask
  | workerStep (success : Bool)
  | closePool

/-- Apply one pool operation (sequential interleaving, `drained = 0`). -/
def applyPoolOp (p : DynamicPool) : PoolOp → DynamicPool
  | PoolOp.submitTask => (p.submit 0).1
  | PoolOp.workerStep b => p.workerStep b
  | PoolOp.closePool => p.close

/-- `DynamicPool.Wait` is exactly `p.wg.Wait()` (worker pool source): it
unblocks precisely when the WaitGroup counter is zero.  This predicate says
that a call to `Wait` in state `p` returns immediately. -/
def waitReturns (p : DynamicPool) : Prop := p.wgCount = 0

/-- Tasks submitted but not yet taken by any worker. -/
def pendingTasks (p : DynamicPool) : Nat := p.queue.length

/-- The externally visible actions of one extraction task of `ExtractAll`
(extraction_service.go lines 88-141) through its ports: reading the cursor
(`Repository.GetLatestCursor`), publishing an entity
(`EventPublisher.PublishEntity`, key = entity ID), and — emitted by no code
path of the service — persisting an entity/cursor (`Repository.SaveEntity`). -/
inductive Effect where
  | getCursor (queryType endpoint result : String)
  | publish (topic key : String)
  | saveEntity (entityType deployment id : String)

/-- Cursor key `<kind>_<endpoint>` (file_repository.go: `fmt.Sprintf`). -/
def cursorKey (t d : String) : String := t ++ "_" ++ d

/-- How the cursor store changes under an effect: only
`FileRepository.SaveEntity` (file_repository.go lines 109-150) writes a
cursor, and only for a non-empty entity ID. -/
def applyEffect (store : List (String × String)) : Effect → List (String × String)
  | Effect.saveEntity t d i => if i = "" then store else (cursorKey t d, i) :: store
  | _ => store

/-- `FileRepository.GetLatestCursor` (file_repository.go lines 206-236) on the
modelled store: the cached value, or the empty cursor when none exists. -/
def getLatestCursor (store : List (String × String)) (t d : String) : String :=
  (List.lookup (cursorKey t d) store).getD ""

/-- One extraction task of `ExtractAll` (extraction_service.go lines 88-141):
read the cursor, run the pagination loop starting from it (`ExtractWithDelta`
for a non-empty cursor, `ExtractEntities` otherwise — both enter
`executeQueryWithPagination` with that start cursor), then publish every
extracted entity to topic `<endpoint>.<queryType>` keyed by its ID.  Returns
the effect trace and whether the task recorded an error.  No branch emits a
`saveEntity` effect: the service never calls `Repository.SaveEntity`. -/
def runExtractionTask (oracle : Nat → String → QueryOutcome) (pageSize maxRetries : Nat)
    (uuid : Nat → String) (store : List (String × String)) (ep qt : String)
    (fuel : Nat) : Option (List Effect × Bool) :=
  let cursor := getLatestCursor store qt ep
  match executeQueryWithPagination oracle pageSize maxRetries ep qt uuid fuel cursor 0 0 [] [] with
  | none => none
  | some (Except.error _, _, _) => some ([Effect.getCursor qt ep cursor], true)
  | some (Except.ok ents, _, _) =>
    some (Effect.getCursor qt ep cursor ::
      ents.map (fun e => Effect.publish (ep ++ "." ++ qt) e.id), false)

/-- A decoded page item with the given string `id` and no other fields. -/
def mkItem (id : String) : GoVal := GoVal.obj [("id", GoVal.str id)]

/-- A decoded `data` map carrying `ids` as the array at `data[qt]` and no
`pageInfo` object. -/
def mkPage (qt : String) (ids : List String) : Option (List (String × GoVal)) :=
  some [(qt, GoVal.arr (ids.map mkItem))]

/-- Scenario A server (spec section 8): pages `[a,b]`, `[c,d]`, `[e]` under
cursor-based resumption with page size 2. -/
def scenarioAServe : String → List String
  | "" => ["a", "b"]
  | "b" => ["c", "d"]
  | "d" => ["e"]
  | _ => []

/-- Scenario A as a transport oracle for query kind `tokens`. -/
def scenarioAOracle : Nat → String → QueryOutcome :=
  fun _ c => QueryOutcome.ok (mkPage "tokens" (scenarioAServe c))

/-- An arbitrary concrete UUID supply for concrete runs. -/
def uuidSupply : Nat → String := fun n => "uuid-" ++ toString n

/-- Model of a server that respects the `id_gt` discipline monotonically over
a finite id set: `lt` is the server's strict order on ids (abstract; the
hypotheses of the C4 theorem make it transitive, irreflexive, and make the
empty string minimal), `S` the finite id set listed in ascending order, and a
query with cursor `c` returns the first `pageSize` ids strictly above `c`. -/
def serveSorted (lt : String → String → Bool) (S : List String) (pageSize : Nat)
    (c : String) : List String :=
  (S.filter (fun x => lt c x)).take pageSize

/-- The monotone server as a transport oracle for query kind `qt`. -/
def sortedOracle (lt : String → String → Bool) (S : List String) (pageSize : Nat)
    (qt : String) : Nat → String → QueryOutcome :=
  fun _ c => QueryOutcome.ok (mkPage qt (serveSorted lt S pageSize c))

/-- A concrete id order for witnesses: compare string lengths. -/
def ltLen : String → String → Bool := fun a b => decide (a.length < b.length)

/-- Scenario C server (spec section 8): two transport failures, then the
single-item page `[ \x7bid: "a"\x7d ]`. -/
def scenarioCOracle : Nat → String → QueryOutcome :=
  fun i _ => if i < 2 then QueryOutcome.err else QueryOutcome.ok (mkPage "tokens" ["a"])

/-- Scenario F server (spec section 8): the same single-item page
`[ \x7bid: "a"\x7d ]` on every call. -/
def stuckOracle : Nat → String → QueryOutcome :=
  fun _ _ => QueryOutcome.ok (mkPage "tokens" ["a"])

/-- A server whose responses decode with no `data` tree at all. -/
def nilOracle : Nat → String → QueryOutcome := fun _ _ => QueryOutcome.ok none

/-- The limiter configuration of Scenario D: initial rate 10, minimum 1
(maximum at the 50 default scale, burst 10). -/
def cfg10 : AdaptiveLimiterConfig :=
  { initialRate := 10, minRate := 1, maxRate := 50, burst := 10 }

/-- Scenario D trace: the freshly constructed limiter after `n` consecutive
`Done(false, 50 ms)` reports. -/
def c9Trace : Nat → AdaptiveLimiter
  | 0 => newAdaptiveLimiter cfg10
  | n + 1 => (c9Trace n).done false 50

/-- The effect trace Scenario A actually produces (computed; see
`c2_scenarioA_no_cursor_persisted`). -/
def scenarioAExpectedTrace : List Effect :=
  [Effect.getCursor "tokens" "E1" "",
   Effect.publish "E1.tokens" "a", Effect.publish "E1.tokens" "b",
   Effect.publish "E1.tokens" "c", Effect.publish "E1.tokens" "d",
   Effect.publish "E1.tokens" "e"]

/-- The limiter invariant of spec section 8 (invariant 1), strengthened with
positivity of the minimum rate: `NewAdaptiveLimiter` establishes it and every
`Done` preserves it. -/
def LimiterInv (l : AdaptiveLimiter) : Prop :=
  0 < l.minRate ∧ l.minRate ≤ l.currentRate ∧ l.currentRate ≤ l.maxRate
    ∧ 0 ≤ l.successRate ∧ l.successRate ≤ 1

/-- Concrete pool for witnesses: queue capacity 1, workers 2, maximum 4. -/
def c7Pool : DynamicPool :=
  newDynamicPool { initialWorkers := 2, minWorkers := 2, maxWorkers := 4, queueSize := 1 }

/-- The same pool after one accepted submission has filled its queue. -/
def c7Full : DynamicPool := (c7Pool.submit 0).1

/-- Concrete pool configuration used in the C1 counterexample state. -/
def c1Config : PoolConfig :=
  { initialWorkers := 4, minWorkers := 2, maxWorkers := 10, queueSize := 100 }

/-- Equation: with at least one attempt available and a successful first call,
the retry loop returns that call's data at once. -/
theorem attemptQuery_ok (oracle : Nat → QueryOutcome) (n i : Nat)
    (d : Option (List (String × GoVal))) (h : oracle i = QueryOutcome.ok d) :
    attemptQuery oracle (n + 1) i = (some d, i + 1) := by
  unfold attemptQuery
  rw [h]

/-- Equation: a failing call with attempts remaining defers to the rest of the
retry loop at the next call index. -/
theorem attemptQuery_err_step (oracle : Nat → QueryOutcome) (n i : Nat)
    (h : oracle i = QueryOutcome.err) :
    attemptQuery oracle (n + 2) i = attemptQuery oracle (n + 1) (i + 1) := by
  unfold attemptQuery
  rw [h]
  exact if_neg (Nat.succ_ne_zero n)

/-- Helper: the loop exits in the iteration whose page yields an empty
`nextCursor` (the third disjunct of the exit condition in
extraction_service.go line 259). -/
theorem exec_exits_on_empty_cursor (oracle : Nat → String → QueryOutcome)
    (pageSize maxRetries : Nat) (ep qt : String) (uuid : Nat → String)
    (fuel : Nat) (cur : String) (ci k : Nat) (acc : List Entity) (dones : List Bool)
    (d : Option (List (String × GoVal)))
    (hq : oracle ci cur = QueryOutcome.ok d)
    (hc : ((processResponse pageSize ep qt uuid k d).1).nextCursor = "") :
    executeQueryWithPagination oracle pageSize maxRetries ep qt uuid
      (fuel + 1) cur ci k acc dones
      = some (Except.ok (acc ++ ((processResponse pageSize ep qt uuid k d).1).entities),
              dones ++ [true], ci + 1) := by
  have ha : attemptQuery (fun i => oracle i cur) (maxRetries + 1) ci = (some d, ci + 1) := by
    unfold attemptQuery
    rw [hq]
  conv_lhs => rw [executeQueryWithPagination]
  rw [ha]
  simp only []
  rw [if_neg]
  intro hcon
  exact hcon.2.2 hc

/-- Claim C6 (amended): when the decoded response carries no `data` tree at
all (a nil data map), `processResponse` returns no entities with
`hasMore = false`, so the pagination loop exits and the task completes
successfully with zero records in that single round-trip — the absent `data`
is treated as a successful empty page, not as a retriable error. -/
theorem c6_nil_data_completes_empty (oracle : Nat → String → QueryOutcome)
    (pageSize maxRetries : Nat) (ep qt : String) (uuid : Nat → String)
    (fuel : Nat) (cur : String) (ci k : Nat) (acc : List Entity) (dones : List Bool)
    (hq : oracle ci cur = QueryOutcome.ok none) :
    executeQueryWithPagination oracle pageSize maxRetries ep qt uuid
      (fuel + 1) cur ci k acc dones
      = some (Except.ok acc, dones ++ [true], ci + 1) := by
  have h := exec_exits_on_empty_cursor oracle pageSize maxRetries ep qt uuid
    fuel cur ci k acc dones none hq rfl
  simpa [processResponse] using h

/-- Witness for C6's amended theorem at a concrete nil-data oracle. -/
theorem c6_witness :
    executeQueryWithPagination nilOracle 2 3 "E1" "tokens" uuidSupply 5 "" 0 0 [] []
      = some (Except.ok [], [true], 1) :=
  c6_nil_data_completes_empty nilOracle 2 3 "E1" "tokens" uuidSupply 4 "" 0 0 [] [] rfl

/-- Counterexample to claim C6 as stated: on a response with no `data` tree,
the task does NOT treat the page as retriable — the run returns success
(`Except.ok`, not an error) with zero records after a single transport call. -/
theorem c6_counterexample :
    executeQueryWithPagination nilOracle 2 3 "E1" "tokens" uuidSupply 5 "" 0 0 [] []
      = some (Except.ok [], [true], 1)
    ∧ (Except.ok ([] : List Entity) : Except Unit (List Entity)) ≠ Except.error () := by
  exact ⟨rfl, fun h => by cases h⟩

/-- Counterexample to claim C3 as stated: in the fails-twice-then-succeeds
scenario (Scenario C, `maxRetries = 3`), the limiter's `Done` is NOT called
three times with flags `[false, false, true]` — the recorded `Done` flags of
the whole run are exactly `[true]`. -/
theorem c3_counterexample :
    (executeQueryWithPagination scenarioCOracle 100 3 "E1" "tokens" uuidSupply 5
        "" 0 0 [] []).map (fun r => r.2.1) = some [true]
    ∧ ([true] : List Bool) ≠ [false, false, true] := by
  exact ⟨rfl, by decide⟩

/-- Claim C3 (amended): the limiter is informed once per page fetch, not once
per transport attempt: `Done` is invoked exactly once, after the retry loop,
with the final outcome.  For a page fetch that fails twice and then succeeds
(`maxRetries = 3`), the run makes 3 transport calls, invokes `Done` exactly
once with success `true`, and the task succeeds with the page's single
record. -/
theorem c3_done_once_per_page :
    executeQueryWithPagination scenarioCOracle 100 3 "E1" "tokens" uuidSupply 5
        "" 0 0 [] []
      = some (Except.ok
          [{ id := "a", type := "tokens", deployment := "E1",
             data := [("id", GoVal.str "a")] }], [true], 3) := rfl

/-- Counterexample to claim C8 as stated: with `remaining = 4` and a non-zero
reset exactly 5 seconds away, `UpdateRateLimit` does NOT snap the current rate
to the minimum (the source condition is strictly `> 5` seconds): the rate
stays at 10 while the minimum is 1. -/
theorem c8_counterexample :
    ((newAdaptiveLimiter cfg10).updateRateLimit 0 4 false 5).currentRate = 10
    ∧ (newAdaptiveLimiter cfg10).minRate = 1
    ∧ (10 : ℚ) ≠ 1 := by
  refine ⟨rfl, rfl, by decide⟩

/-- Claim C8 (amended): on `UpdateRateLimit` with `remaining < 5` and a
non-zero reset STRICTLY more than 5 seconds away, the limiter snaps
`currentRate` to `minRate`, in every state; a reset exactly 5 seconds away
does not trigger the snap. -/
theorem c8_snap_strict (l : AdaptiveLimiter) (rateLimit remaining : Int)
    (untilReset : ℚ) (hrem : remaining < 5) (hu : 5 < untilReset) :
    (l.updateRateLimit rateLimit remaining false untilReset).currentRate = l.minRate := by
  unfold AdaptiveLimiter.updateRateLimit
  rw [if_pos ⟨hrem, rfl, hu⟩]

/-- Witness for C8's amended theorem: a reset 6 seconds away with 4 calls
remaining snaps the concrete limiter to its minimum rate. -/
theorem c8_witness :
    ((newAdaptiveLimiter cfg10).updateRateLimit 0 4 false 6).currentRate
      = (newAdaptiveLimiter cfg10).minRate :=
  c8_snap_strict (newAdaptiveLimiter cfg10) 0 4 6 (by decide) (by decide)

/-- Claim C7: `Submit` is a total (non-blocking) function with exactly the
three contracted outcomes: on a closed pool it returns the closed error and
changes nothing; with queue space it enqueues and returns ok; with a full
queue and worker count below the maximum it performs exactly one synchronous
scale-up (one extra worker) and retries the enqueue exactly once, succeeding
iff workers drained the queue in between, and returning queue-full otherwise;
with a full queue at the maximum worker count it returns queue-full
immediately with no scale-up. -/
theorem c7_submit_outcomes (p : DynamicPool) (drained : Nat) :
    (p.closed = true → p.submit drained = (p, SubmitResult.closedErr))
    ∧ (p.closed = false → p.queue.length < p.queueCap →
        p.submit drained = ({ p with queue := p.queue ++ [()] }, SubmitResult.ok))
    ∧ (p.closed = false → ¬ p.queue.length < p.queueCap →
        p.currentSize < p.maxWorkers →
        ((p.submit drained).1.currentSize = p.currentSize + 1
          ∧ ((p.submit drained).2 = SubmitResult.ok
              ↔ p.queue.length - drained < p.queueCap)))
    ∧ (p.closed = false → ¬ p.queue.length < p.queueCap →
        ¬ p.currentSize < p.maxWorkers →
        p.submit drained = (p, SubmitResult.queueFull)) := by
  refine ⟨?_, ?_, ?_, ?_⟩
  · intro h
    simp [DynamicPool.submit, h]
  · intro h1 h2
    simp [DynamicPool.submit, h1, h2]
  · intro h1 h2 h3
    have hmin : min 1 (p.maxWorkers - p.currentSize) = 1 :=
      Nat.min_eq_left (Nat.le_sub_of_add_le (by omega))
    have hred : p.submit drained
        = (if ((p.scaleUp 1).queue.drop drained).length < p.queueCap then
            ({ p.scaleUp 1 with queue := ((p.scaleUp 1).queue.drop drained) ++ [()] },
              SubmitResult.ok)
          else ({ p.scaleUp 1 with queue := (p.scaleUp 1).queue.drop drained },
              SubmitResult.queueFull)) := by
      simp only [DynamicPool.submit, h1, Bool.false_eq_true, if_false, if_neg h2, if_pos h3]
      rfl
    constructor
    · rw [hred]
      by_cases hd : ((p.scaleUp 1).queue.drop drained).length < p.queueCap
      · rw [if_pos hd]
        simp [DynamicPool.scaleUp, hmin]
      · rw [if_neg hd]
        simp [DynamicPool.scaleUp, hmin]
    · rw [hred]
      by_cases hd : ((p.scaleUp 1).queue.drop drained).length < p.queueCap
      · rw [if_pos hd]
        simp only [DynamicPool.scaleUp] at hd ⊢
        simp only [List.length_drop] at hd
        simp [hd]
      · rw [if_neg hd]
        simp only [DynamicPool.scaleUp] at hd ⊢
        simp only [List.length_drop] at hd
        constructor
        · intro hcon
          cases hcon
        · intro hcon
          exact absurd hcon hd
  · intro h1 h2 h3
    simp [DynamicPool.submit, h1, h2, h3]

/-- Witness for C7: on the concrete full-queue pool below its worker maximum,
a sequential submission scales up by exactly one worker and reports
queue-full (no concurrent drain). -/
theorem c7_witness :
    (c7Full.submit 0).1.currentSize = c7Full.currentSize + 1
    ∧ ((c7Full.submit 0).2 = SubmitResult.ok
        ↔ c7Full.queue.length - 0 < c7Full.queueCap) :=
  (c7_submit_outcomes c7Full 0).2.2.1 rfl (by decide) (by decide)

/-- The WaitGroup counter of the pool is untouched by every pool operation:
the source contains no `wg.Add` or `wg.Done` call on the pool's WaitGroup. -/
theorem applyPoolOp_wgCount (p : DynamicPool) (op : PoolOp) :
    (applyPoolOp p op).wgCount = p.wgCount := by
  cases op with
  | submitTask =>
    simp only [applyPoolOp, DynamicPool.submit]
    repeat' split
    all_goals rfl
  | workerStep b =>
    simp only [applyPoolOp, DynamicPool.workerStep]
    split
    · rfl
    · rfl
  | closePool =>
    simp only [applyPoolOp, DynamicPool.close]
    split
    · rfl
    · rfl

/-- Folding any operation sequence over a pool leaves the WaitGroup counter
unchanged. -/
theorem foldl_poolOps_wgCount (ops : List PoolOp) (p : DynamicPool) :
    (ops.foldl applyPoolOp p).wgCount = p.wgCount := by
  induction ops generalizing p with
  | nil => rfl
  | cons op rest ih =>
    rw [List.foldl_cons, ih, applyPoolOp_wgCount]

/-- Claim C1 is violated by the code (code bug): `DynamicPool.Wait` waits on a
WaitGroup whose counter no pool operation ever increments, so in every
reachable pool state `Wait` returns immediately — in particular right after a
task has been submitted and before any worker has taken it, i.e. while the
submitted task is still pending.  `ExtractAll` therefore does not block until
its submitted tasks complete. -/
theorem c1_wait_returns_with_pending_tasks :
    (∀ (c : PoolConfig) (ops : List PoolOp),
      waitReturns (ops.foldl applyPoolOp (newDynamicPool c)))
    ∧ waitReturns (applyPoolOp (newDynamicPool c1Config) PoolOp.submitTask)
    ∧ pendingTasks (applyPoolOp (newDynamicPool c1Config) PoolOp.submitTask) = 1 := by
  refine ⟨?_, rfl, rfl⟩
  intro c ops
  unfold waitReturns
  rw [foldl_poolOps_wgCount]
  rfl

/-- Claim C2 is violated by the code (code bug): in Scenario A the task
completes having published the five records `a..e` to topic `E1.tokens`, but
its effect trace contains no `Repository.SaveEntity` call — `ExtractAll` never
invokes the cursor store's writer — so the cursor store is left unchanged and
the persisted cursor for (tokens, E1) is still the empty cursor, not `"e"`. -/
theorem c2_scenarioA_no_cursor_persisted :
    runExtractionTask scenarioAOracle 2 3 uuidSupply [] "E1" "tokens" 10
      = some (scenarioAExpectedTrace, false)
    ∧ scenarioAExpectedTrace.foldl applyEffect [] = []
    ∧ getLatestCursor (scenarioAExpectedTrace.foldl applyEffect []) "tokens" "E1" = ""
    ∧ ("" : String) ≠ "e" := by
  exact ⟨rfl, rfl, rfl, by decide⟩

/-- The candidate cursor computed by the item loop does not depend on the
UUID supply or its counter: synthesised IDs never reach the cursor. -/
theorem processItems_cursor_uuid_invariant (ep qt : String) (u1 u2 : Nat → String) :
    ∀ (items : List GoVal) (cur : String) (k1 k2 : Nat),
      (processItems ep qt u1 items cur k1).2.1
        = (processItems ep qt u2 items cur k2).2.1 := by
  intro items
  induction items with
  | nil =>
    intro cur k1 k2
    rfl
  | cons item rest ih =>
    intro cur k1 k2
    cases item <;> simp only [processItems] <;> exact ih _ _ _

/-- `processResponse`'s `nextCursor` does not depend on the UUID supply. -/
theorem processResponse_cursor_uuid_invariant (pageSize : Nat) (ep qt : String)
    (u1 u2 : Nat → String) (k1 k2 : Nat) (data : Option (List (String × GoVal))) :
    ((processResponse pageSize ep qt u1 k1 data).1).nextCursor
      = ((processResponse pageSize ep qt u2 k2 data).1).nextCursor := by
  cases data with
  | none => rfl
  | some d =>
    simp only [processResponse]
    cases haa : asArr (lookupField d qt) with
    | none =>
      cases hpi : asObj (lookupField d "pageInfo") <;> simp [hpi]
    | some items =>
      have hcur := processItems_cursor_uuid_invariant ep qt u1 u2 items "" k1 k2
      cases hpi : asObj (lookupField d "pageInfo") with
      | none =>
        simpa [hpi] using hcur
      | some pi =>
        simp only [hpi]
        rw [hcur]

/-- Decomposition of the item loop over list concatenation: the second half
starts from the cursor and counter the first half ends with. -/
theorem processItems_append (ep qt : String) (u : Nat → String) :
    ∀ (xs ys : List GoVal) (cur : String) (k : Nat),
      processItems ep qt u (xs ++ ys) cur k
        = ((processItems ep qt u xs cur k).1
            ++ (processItems ep qt u ys (processItems ep qt u xs cur k).2.1
                (processItems ep qt u xs cur k).2.2).1,
           (processItems ep qt u ys (processItems ep qt u xs cur k).2.1
                (processItems ep qt u xs cur k).2.2).2) := by
  intro xs
  induction xs with
  | nil =>
    intro ys cur k
    rfl
  | cons item rest ih =>
    intro ys cur k
    cases item <;> simp only [List.cons_append, processItems, List.append_eq] <;> rw [ih]

/-- Claim C10: within a page, the candidate next cursor is taken only from
elements whose raw `id` field is a string: (1) the computed `nextCursor` is
independent of the UUID supply, so a synthesised UUID never becomes the
cursor; (2) appending an element without a string `id` leaves the candidate
cursor unchanged; (3) appending an element whose `id` is the empty string sets
the candidate cursor to the empty string; and (4) a page whose `nextCursor`
comes out empty (with no `pageInfo.endCursor` to override it) makes the
pagination loop exit after that page. -/
theorem c10_cursor_only_from_string_ids :
    (∀ (pageSize : Nat) (ep qt : String) (u1 u2 : Nat → String) (k1 k2 : Nat)
        (data : Option (List (String × GoVal))),
      ((processResponse pageSize ep qt u1 k1 data).1).nextCursor
        = ((processResponse pageSize ep qt u2 k2 data).1).nextCursor)
    ∧ (∀ (ep qt : String) (u : Nat → String) (items : List GoVal) (cur : String)
        (k : Nat) (fields : List (String × GoVal)),
      asString (lookupField fields "id") = none →
      (processItems ep qt u (items ++ [GoVal.obj fields]) cur k).2.1
        = (processItems ep qt u items cur k).2.1)
    ∧ (∀ (ep qt : String) (u : Nat → String) (items : List GoVal) (cur : String)
        (k : Nat) (fields : List (String × GoVal)),
      asString (lookupField fields "id") = some "" →
      (processItems ep qt u (items ++ [GoVal.obj fields]) cur k).2.1 = "")
    ∧ (∀ (oracle : Nat → String → QueryOutcome) (pageSize maxRetries : Nat)
        (ep qt : String) (u : Nat → String) (fuel : Nat) (cur : String)
        (ci k : Nat) (acc : List Entity) (dones : List Bool)
        (d : Option (List (String × GoVal))),
      oracle ci cur = QueryOutcome.ok d →
      ((processResponse pageSize ep qt u k d).1).nextCursor = "" →
      executeQueryWithPagination oracle pageSize maxRetries ep qt u
          (fuel + 1) cur ci k acc dones
        = some (Except.ok (acc ++ ((processResponse pageSize ep qt u k d).1).entities),
                dones ++ [true], ci + 1)) := by
  refine ⟨?_, ?_, ?_, ?_⟩
  · intro pageSize ep qt u1 u2 k1 k2 data
    exact processResponse_cursor_uuid_invariant pageSize ep qt u1 u2 k1 k2 data
  · intro ep qt u items cur k fields h
    rw [processItems_append]
    simp [processItems, h]
  · intro ep qt u items cur k fields h
    rw [processItems_append]
    simp [processItems, h]
  · intro oracle pageSize maxRetries ep qt u fuel cur ci k acc dones d hq hc
    exact exec_exits_on_empty_cursor oracle pageSize maxRetries ep qt u
      fuel cur ci k acc dones d hq hc

/-- Witness for C10, at concrete pages: a trailing object without a string
`id` keeps the cursor of the preceding items; a trailing object with an empty
string `id` empties the cursor; and the loop exits after a page whose last
`id` is the empty string. -/
theorem c10_witness :
    (processItems "E1" "tokens" uuidSupply [mkItem "a", GoVal.obj [("x", GoVal.null)]] "" 0).2.1
      = (processItems "E1" "tokens" uuidSupply [mkItem "a"] "" 0).2.1
    ∧ (processItems "E1" "tokens" uuidSupply
        [mkItem "a", GoVal.obj [("id", GoVal.str "")]] "" 0).2.1 = ""
    ∧ executeQueryWithPagination (fun _ _ => QueryOutcome.ok (mkPage "tokens" [""]))
        2 3 "E1" "tokens" uuidSupply 4 "" 0 0 [] []
      = some (Except.ok
          ((processResponse 2 "E1" "tokens" uuidSupply 0 (mkPage "tokens" [""])).1).entities,
          [true], 1) :=
  ⟨c10_cursor_only_from_string_ids.2.1 "E1" "tokens" uuidSupply
      [mkItem "a"] "" 0 [("x", GoVal.null)] rfl,
   c10_cursor_only_from_string_ids.2.2.1 "E1" "tokens" uuidSupply
      [mkItem "a"] "" 0 [("id", GoVal.str "")] rfl,
   c10_cursor_only_from_string_ids.2.2.2
      (fun _ _ => QueryOutcome.ok (mkPage "tokens" [""])) 2 3 "E1" "tokens" uuidSupply
      3 "" 0 0 [] [] (mkPage "tokens" [""]) rfl rfl⟩

/-- `adjustRate` changes only `currentRate`: the rate bounds and the EMA are
untouched. -/
theorem adjustRate_bounds (l : AdaptiveLimiter) (b : Bool) :
    (l.adjustRate b).minRate = l.minRate ∧ (l.adjustRate b).maxRate = l.maxRate
      ∧ (l.adjustRate b).successRate = l.successRate := by
  unfold AdaptiveLimiter.adjustRate
  simp only []
  split_ifs <;> exact ⟨rfl, rfl, rfl⟩

/-- `Done` never changes the rate bounds. -/
theorem done_bounds (l : AdaptiveLimiter) (b : Bool) (lat : ℚ) :
    ((l.done b lat).minRate = l.minRate ∧ (l.done b lat).maxRate = l.maxRate) := by
  unfold AdaptiveLimiter.done AdaptiveLimiter.recordLatency
  simp only []
  constructor
  · rw [(adjustRate_bounds _ b).1]
  · rw [(adjustRate_bounds _ b).2.1]

/-- `adjustRate` preserves the limiter invariant. -/
theorem limiterInv_adjustRate (l : AdaptiveLimiter) (h : LimiterInv l) (b : Bool) :
    LimiterInv (l.adjustRate b) := by
  obtain ⟨h0, h1, h2, h3, h4⟩ := h
  unfold AdaptiveLimiter.adjustRate
  simp only []
  split_ifs <;>
    refine ⟨h0, ?_, ?_, h3, h4⟩ <;> (try dsimp only) <;> linarith

/-- `Done` preserves the limiter invariant. -/
theorem limiterInv_done (l : AdaptiveLimiter) (h : LimiterInv l) (b : Bool) (lat : ℚ) :
    LimiterInv (l.done b lat) := by
  obtain ⟨h0, h1, h2, h3, h4⟩ := h
  unfold AdaptiveLimiter.done AdaptiveLimiter.recordLatency
  simp only []
  apply limiterInv_adjustRate
  refine ⟨h0, h1, h2, ?_, ?_⟩ <;> cases b <;> simp <;> linarith

/-- `NewAdaptiveLimiter` establishes the limiter invariant for every
configuration. -/
theorem limiterInv_init (c : AdaptiveLimiterConfig) :
    LimiterInv (newAdaptiveLimiter c) := by
  unfold newAdaptiveLimiter LimiterInv
  simp only []
  split_ifs <;>
    refine ⟨by linarith, by linarith, by linarith, by norm_num, by norm_num⟩

/-- Folding any event sequence of `Done` calls preserves the invariant. -/
theorem limiterInv_foldl (events : List (Bool × ℚ)) :
    ∀ (l : AdaptiveLimiter), LimiterInv l →
      LimiterInv (events.foldl (fun s e => s.done e.1 e.2) l) := by
  induction events with
  | nil => intro l h; exact h
  | cons e rest ih =>
    intro l h
    rw [List.foldl_cons]
    exact ih _ (limiterInv_done l h e.1 e.2)

/-- Claim C5: for every configuration and every finite sequence of
`Done(success, latency)` calls applied to a freshly constructed
`AdaptiveLimiter`, the state after the calls satisfies
`minRate ≤ currentRate ≤ maxRate` and the success EMA lies in `[0, 1]`
(quantifying over all sequences covers every prefix, i.e. the state after
each call). -/
theorem c5_limiter_invariant (c : AdaptiveLimiterConfig) (events : List (Bool × ℚ)) :
    (events.foldl (fun s e => s.done e.1 e.2) (newAdaptiveLimiter c)).minRate
      ≤ (events.foldl (fun s e => s.done e.1 e.2) (newAdaptiveLimiter c)).currentRate
    ∧ (events.foldl (fun s e => s.done e.1 e.2) (newAdaptiveLimiter c)).currentRate
      ≤ (events.foldl (fun s e => s.done e.1 e.2) (newAdaptiveLimiter c)).maxRate
    ∧ 0 ≤ (events.foldl (fun s e => s.done e.1 e.2) (newAdaptiveLimiter c)).successRate
    ∧ (events.foldl (fun s e => s.done e.1 e.2) (newAdaptiveLimiter c)).successRate ≤ 1 := by
  obtain ⟨_, h1, h2, h3, h4⟩ := limiterInv_foldl events (newAdaptiveLimiter c) (limiterInv_init c)
  exact ⟨h1, h2, h3, h4⟩

/-- The failure branch of `adjustRate`: the rate never increases, never drops
below `minRate`, and is bounded by the larger of `minRate` and 0.8 times the
old rate (the 0.5 factor case is below the 0.8 one). -/
theorem adjustRate_false (l : AdaptiveLimiter) (h0 : 0 ≤ l.minRate)
    (h1 : l.minRate ≤ l.currentRate) :
    (l.adjustRate false).currentRate ≤ l.currentRate
    ∧ l.minRate ≤ (l.adjustRate false).currentRate
    ∧ (l.adjustRate false).currentRate ≤ max l.minRate (l.currentRate * (4/5)) := by
  unfold AdaptiveLimiter.adjustRate
  simp only []
  rw [if_pos trivial]
  split_ifs with hs hlt hlt2
  · exact ⟨h1, le_refl _, le_max_left _ _⟩
  · refine ⟨by linarith, by linarith, ?_⟩
    exact le_trans (by linarith) (le_max_right _ _)
  · exact ⟨h1, le_refl _, le_max_left _ _⟩
  · refine ⟨by linarith, by linarith, ?_⟩
    exact le_trans (by linarith) (le_max_right _ _)

/-- One `Done(false, latency)` report: same bounds, lifted through the
latency recording and EMA update (which do not touch the rates). -/
theorem done_false_step (l : AdaptiveLimiter) (h0 : 0 ≤ l.minRate)
    (h1 : l.minRate ≤ l.currentRate) (lat : ℚ) :
    (l.done false lat).currentRate ≤ l.currentRate
    ∧ l.minRate ≤ (l.done false lat).currentRate
    ∧ (l.done false lat).currentRate ≤ max l.minRate (l.currentRate * (4/5)) := by
  unfold AdaptiveLimiter.done AdaptiveLimiter.recordLatency
  simp only []
  exact adjustRate_false _ h0 h1

/-- Scenario D bookkeeping: along the 20-failure trace the minimum rate stays
1, the current rate stays at least 1, and it is bounded by
`max 1 (10 · 0.8^n)`. -/
theorem c9Trace_facts (n : Nat) :
    (c9Trace n).minRate = 1 ∧ 1 ≤ (c9Trace n).currentRate
      ∧ (c9Trace n).currentRate ≤ max 1 (10 * (4/5 : ℚ)^n) := by
  induction n with
  | zero =>
    refine ⟨rfl, ?_, ?_⟩
    · show (1 : ℚ) ≤ 10
      norm_num
    · show (10 : ℚ) ≤ max 1 (10 * (4/5 : ℚ)^0)
      norm_num
  | succ n ih =>
    obtain ⟨hm, hc, hb⟩ := ih
    have h1 : (c9Trace n).minRate ≤ (c9Trace n).currentRate := by
      rw [hm]; exact hc
    have h0 : (0 : ℚ) ≤ (c9Trace n).minRate := by
      rw [hm]; norm_num
    have hstep := done_false_step (c9Trace n) h0 h1 50
    have hm2 : (c9Trace (n + 1)).minRate = 1 := by
      show ((c9Trace n).done false 50).minRate = 1
      rw [(done_bounds _ _ _).1, hm]
    refine ⟨hm2, ?_, ?_⟩
    · have h := hstep.2.1
      rw [hm] at h
      exact h
    · have h3 := hstep.2.2
      rw [hm] at h3
      have hmul : (c9Trace n).currentRate * (4/5)
          ≤ (max 1 (10 * (4/5 : ℚ)^n)) * (4/5) :=
        mul_le_mul_of_nonneg_right hb (by norm_num)
      have hdist : (max 1 (10 * (4/5 : ℚ)^n)) * (4/5)
          = max ((1 : ℚ) * (4/5)) (10 * (4/5 : ℚ)^n * (4/5)) :=
        max_mul_of_nonneg _ _ (by norm_num)
      have hpow : 10 * (4/5 : ℚ)^n * (4/5) = 10 * (4/5 : ℚ)^(n+1) := by
        rw [pow_succ]; ring
      have hle : (c9Trace n).currentRate * (4/5) ≤ max 1 (10 * (4/5 : ℚ)^(n+1)) := by
        refine le_trans hmul ?_
        rw [hdist, hpow]
        exact max_le_max (by norm_num) (le_refl _)
      exact le_trans h3 (max_le (le_max_left _ _) (le_trans hle (le_refl _)))

/-- Claim C9: starting from `currentRate = 10`, `minRate = 1`, feeding 20
consecutive `Done(false, 50 ms)` reports makes the current rate monotonically
non-increasing at every step, and after the 20 reports it equals 1, the
minimum (it reaches 1 by report 6: the EMA falls below 0.7 at the 4th
failure, switching the factor from 0.8 to 0.5, and the floor at the minimum
rate catches the sequence 10, 8, 6.4, 5.12, 2.56, 1.28, 1). -/
theorem c9_twenty_failures_converge :
    (∀ i : Nat, (c9Trace (i + 1)).currentRate ≤ (c9Trace i).currentRate)
    ∧ (c9Trace 20).minRate = 1
    ∧ (c9Trace 20).currentRate = 1 := by
  refine ⟨?_, (c9Trace_facts 20).1, ?_⟩
  · intro i
    obtain ⟨hm, hc, _⟩ := c9Trace_facts i
    have h1 : (c9Trace i).minRate ≤ (c9Trace i).currentRate := by
      rw [hm]; exact hc
    have h0 : (0 : ℚ) ≤ (c9Trace i).minRate := by
      rw [hm]; norm_num
    exact (done_false_step (c9Trace i) h0 h1 50).1
  · have hup := (c9Trace_facts 20).2.2
    have hmax : max 1 (10 * (4/5 : ℚ)^20) = 1 := by
      apply max_eq_left
      norm_num
    rw [hmax] at hup
    exact le_antisymm hup (c9Trace_facts 20).2.1

/-- A nonempty list's `getLastD` is one of its elements. -/
theorem getLastD_mem (l : List String) (d : String) (h : l ≠ []) :
    l.getLastD d ∈ l := by
  induction l generalizing d with
  | nil => exact absurd rfl h
  | cons a rest ih =>
    rw [List.getLastD_cons]
    cases hr : rest with
    | nil => simp
    | cons b bs =>
      rw [← hr]
      have : rest.getLastD a ∈ rest := ih a (by rw [hr]; exact List.cons_ne_nil _ _)
      exact List.mem_cons_of_mem _ this

/-- In a list sorted by `lt`, every element is the last one or strictly below
it. -/
theorem pairwise_getLastD_top (lt : String → String → Bool) (l : List String)
    (hl : l.Pairwise (fun a b => lt a b = true)) (d : String) :
    ∀ x ∈ l, x = l.getLastD d ∨ lt x (l.getLastD d) = true := by
  induction l generalizing d with
  | nil => intro x hx; cases hx
  | cons a rest ih =>
    intro x hx
    rw [List.getLastD_cons]
    rcases List.mem_cons.mp hx with hxa | hxr
    · subst hxa
      by_cases hrest : rest = []
      · subst hrest
        left
        rfl
      · right
        exact (List.pairwise_cons.mp hl).1 _ (getLastD_mem rest _ hrest)
    · exact ih (List.Pairwise.of_cons hl) a x hxr

/-- The item loop on a page of `mkItem`s: one entity per id, candidate cursor
the last id (or the incoming cursor for an empty page). -/
theorem processItems_mkItems (ep qt : String) (u : Nat → String) :
    ∀ (ids : List String) (cur : String) (k : Nat),
      (processItems ep qt u (ids.map mkItem) cur k).1.length = ids.length
      ∧ (processItems ep qt u (ids.map mkItem) cur k).2.1 = ids.getLastD cur := by
  intro ids
  induction ids with
  | nil =>
    intro cur k
    exact ⟨rfl, rfl⟩
  | cons i rest ih =>
    intro cur k
    constructor
    · show (processItems ep qt u (mkItem i :: rest.map mkItem) cur k).1.length
        = rest.length + 1
      simp only [processItems, mkItem, lookupField, asString, List.lookup]
      simp only [List.length_cons]
      rw [(ih _ _).1]
    · show (processItems ep qt u (mkItem i :: rest.map mkItem) cur k).2.1
        = (i :: rest).getLastD cur
      simp only [processItems, mkItem, lookupField, asString, List.lookup]
      rw [List.getLastD_cons]
      exact (ih _ _).2

/-- `processResponse` on a `mkPage`: entity count, candidate cursor, and the
length-based `hasMore` heuristic (there is no `pageInfo`). -/
theorem processResponse_mkPage (pageSize : Nat) (ep qt : String) (u : Nat → String)
    (k : Nat) (ids : List String) :
    (processResponse pageSize ep qt u k (mkPage qt ids)).1.entities.length = ids.length
    ∧ (processResponse pageSize ep qt u k (mkPage qt ids)).1.nextCursor = ids.getLastD ""
    ∧ (processResponse pageSize ep qt u k (mkPage qt ids)).1.hasMore
        = decide (pageSize ≤ ids.length) := by
  have hlook : lookupField [(qt, GoVal.arr (ids.map mkItem))] qt
      = some (GoVal.arr (ids.map mkItem)) := by
    simp [lookupField, List.lookup]
  have hpi : asObj (lookupField [(qt, GoVal.arr (ids.map mkItem))] "pageInfo") = none := by
    simp only [lookupField, List.lookup]
    cases h : (("pageInfo" : String) == qt) <;> simp [asObj]
  simp only [processResponse, mkPage, hlook, asArr, hpi]
  obtain ⟨hlen, hcur⟩ := processItems_mkItems ep qt u ids "" k
  exact ⟨hlen, hcur, by rw [hlen]⟩

/-- One successful iteration of the pagination loop, before deciding whether
to continue. -/
theorem exec_step_ok (oracle : Nat → String → QueryOutcome)
    (pageSize maxRetries : Nat) (ep qt : String) (u : Nat → String)
    (fuel : Nat) (cur : String) (ci k : Nat) (acc : List Entity) (dones : List Bool)
    (d : Option (List (String × GoVal)))
    (hq : oracle ci cur = QueryOutcome.ok d) :
    executeQueryWithPagination oracle pageSize maxRetries ep qt u
        (fuel + 1) cur ci k acc dones
      = if (processResponse pageSize ep qt u k d).1.hasMore = true
            ∧ (processResponse pageSize ep qt u k d).1.nextCursor ≠ cur
            ∧ (processResponse pageSize ep qt u k d).1.nextCursor ≠ "" then
          executeQueryWithPagination oracle pageSize maxRetries ep qt u
            fuel (processResponse pageSize ep qt u k d).1.nextCursor (ci + 1)
            (processResponse pageSize ep qt u k d).2
            (acc ++ (processResponse pageSize ep qt u k d).1.entities) (dones ++ [true])
        else
          some (Except.ok (acc ++ (processResponse pageSize ep qt u k d).1.entities),
                dones ++ [true], ci + 1) := by
  have ha : attemptQuery (fun i => oracle i cur) (maxRetries + 1) ci = (some d, ci + 1) := by
    unfold attemptQuery
    rw [hq]
  conv_lhs => rw [executeQueryWithPagination]
  rw [ha]

/-- The measure decrease of the pagination loop: after a full page, the ids
still strictly above the new cursor number at least `pageSize` fewer than
those above the old cursor. -/
theorem rem_decrease (lt : String → String → Bool) (S : List String)
    (pageSize : Nat) (hp : 1 ≤ pageSize)
    (htrans : ∀ a b c, lt a b = true → lt b c = true → lt a c = true)
    (hirr : ∀ a, lt a a = false)
    (hS : S.Pairwise (fun a b => lt a b = true)) (c : String)
    (hfull : (serveSorted lt S pageSize c).length = pageSize) :
    (S.filter (fun x => lt ((serveSorted lt S pageSize c).getLastD "") x)).length + pageSize
      ≤ (S.filter (fun x => lt c x)).length := by
  have hids_ne : serveSorted lt S pageSize c ≠ [] := by
    intro h0
    rw [h0] at hfull
    simp at hfull
    omega
  have hnx_mem : (serveSorted lt S pageSize c).getLastD "" ∈ serveSorted lt S pageSize c :=
    getLastD_mem _ _ hids_ne
  have hnx_L : (serveSorted lt S pageSize c).getLastD ""
      ∈ S.filter (fun x => lt c x) :=
    List.take_subset _ _ hnx_mem
  have hcnx : lt c ((serveSorted lt S pageSize c).getLastD "") = true :=
    List.of_mem_filter hnx_L
  have hL_sorted : (S.filter (fun x => lt c x)).Pairwise (fun a b => lt a b = true) :=
    hS.filter _
  have hids_sorted : (serveSorted lt S pageSize c).Pairwise (fun a b => lt a b = true) :=
    hL_sorted.sublist (List.take_sublist _ _)
  have hnone : ∀ x ∈ serveSorted lt S pageSize c,
      ¬ (lt ((serveSorted lt S pageSize c).getLastD "") x = true) := by
    intro x hx hcon
    rcases pairwise_getLastD_top lt _ hids_sorted "" x hx with hxe | hxlt
    · rw [hxe] at hcon
      rw [hirr] at hcon
      exact Bool.noConfusion hcon
    · have := htrans _ _ _ hxlt hcon
      rw [hirr] at this
      exact Bool.noConfusion this
  have step1 : S.filter (fun x => lt ((serveSorted lt S pageSize c).getLastD "") x)
      = (S.filter (fun x => lt c x)).filter
          (fun x => lt ((serveSorted lt S pageSize c).getLastD "") x) := by
    rw [List.filter_filter]
    apply List.filter_congr
    intro a _
    cases h : lt ((serveSorted lt S pageSize c).getLastD "") a with
    | false => simp
    | true =>
      have := htrans _ _ _ hcnx h
      simp [this]
  have hsplit : S.filter (fun x => lt c x)
      = serveSorted lt S pageSize c
        ++ (S.filter (fun x => lt c x)).drop pageSize :=
    (List.take_append_drop pageSize _).symm
  have step2 : ((S.filter (fun x => lt c x)).filter
      (fun x => lt ((serveSorted lt S pageSize c).getLastD "") x)).length
        ≤ (S.filter (fun x => lt c x)).length - pageSize := by
    conv_lhs => rw [hsplit]
    rw [List.filter_append]
    rw [List.filter_eq_nil_iff.mpr hnone]
    simp only [List.nil_append]
    calc (((S.filter (fun x => lt c x)).drop pageSize).filter
            (fun x => lt ((serveSorted lt S pageSize c).getLastD "") x)).length
        ≤ ((S.filter (fun x => lt c x)).drop pageSize).length :=
          List.length_filter_le _ _
      _ = (S.filter (fun x => lt c x)).length - pageSize := List.length_drop _ _
  have hple : pageSize ≤ (S.filter (fun x => lt c x)).length := by
    have := List.length_take pageSize (S.filter (fun x => lt c x))
    have h2 : (serveSorted lt S pageSize c).length
        = min pageSize (S.filter (fun x => lt c x)).length := this
    rw [hfull] at h2
    omega
  rw [step1]
  omega

/-- The pagination loop against a monotone server, by strong induction on the
number of ids still above the cursor: with fuel `n / pageSize + 1` the loop
returns successfully after `m` round-trips, `1 ≤ m ≤ n / pageSize + 1`, with
one `Done(true)` report and one `client.Query` call per round-trip. -/
theorem sorted_loop (lt : String → String → Bool)
    (htrans : ∀ a b c, lt a b = true → lt b c = true → lt a c = true)
    (hirr : ∀ a, lt a a = false)
    (hempty : ∀ a, lt a "" = false)
    (S : List String) (hS : S.Pairwise (fun a b => lt a b = true))
    (pageSize : Nat) (hp : 1 ≤ pageSize) (maxRetries : Nat) (ep qt : String)
    (u : Nat → String) :
    ∀ (n : Nat) (c : String), (S.filter (fun x => lt c x)).length = n →
    ∀ (fuel : Nat), n / pageSize + 1 ≤ fuel →
    ∀ (ci k : Nat) (acc : List Entity) (dones : List Bool),
    ∃ (ents : List Entity) (m : Nat),
      executeQueryWithPagination (sortedOracle lt S pageSize qt) pageSize maxRetries ep qt u
          fuel c ci k acc dones
        = some (Except.ok ents, dones ++ List.replicate m true, ci + m)
      ∧ 1 ≤ m ∧ m ≤ n / pageSize + 1 := by
  intro n
  induction n using Nat.strong_induction_on with
  | _ n ih =>
    intro c hc fuel hfuel ci k acc dones
    have hf1 : 1 ≤ fuel := le_trans (Nat.succ_le_succ (Nat.zero_le _)) hfuel
    obtain ⟨f, rfl⟩ : ∃ f, fuel = f + 1 := ⟨fuel - 1, by omega⟩
    have hq : sortedOracle lt S pageSize qt ci c
        = QueryOutcome.ok (mkPage qt (serveSorted lt S pageSize c)) := rfl
    rw [exec_step_ok (sortedOracle lt S pageSize qt) pageSize maxRetries ep qt u
        f c ci k acc dones (mkPage qt (serveSorted lt S pageSize c)) hq]
    obtain ⟨hlen, hcur, hmore⟩ :=
      processResponse_mkPage pageSize ep qt u k (serveSorted lt S pageSize c)
    have hlen_ids : (serveSorted lt S pageSize c).length
        = min pageSize n := by
      show ((S.filter (fun x => lt c x)).take pageSize).length = min pageSize n
      rw [List.length_take, hc]
    by_cases hfull : pageSize ≤ (serveSorted lt S pageSize c).length
    · -- full page: continue
      have hlen_eq : (serveSorted lt S pageSize c).length = pageSize := by omega
      have hne : serveSorted lt S pageSize c ≠ [] := by
        intro h0
        rw [h0] at hlen_eq
        simp at hlen_eq
        omega
      have hnx_mem : (serveSorted lt S pageSize c).getLastD ""
          ∈ serveSorted lt S pageSize c := getLastD_mem _ _ hne
      have hnx_L : (serveSorted lt S pageSize c).getLastD ""
          ∈ S.filter (fun x => lt c x) := List.take_subset _ _ hnx_mem
      have hcnx : lt c ((serveSorted lt S pageSize c).getLastD "") = true :=
        List.of_mem_filter hnx_L
      have hnx_ne_c : (serveSorted lt S pageSize c).getLastD "" ≠ c := by
        intro h
        rw [h, hirr] at hcnx
        exact Bool.noConfusion hcnx
      have hnx_ne_nil : (serveSorted lt S pageSize c).getLastD "" ≠ "" := by
        intro h
        rw [h, hempty] at hcnx
        exact Bool.noConfusion hcnx
      rw [if_pos ⟨by rw [hmore]; exact decide_eq_true hfull,
        by rw [hcur]; exact hnx_ne_c, by rw [hcur]; exact hnx_ne_nil⟩]
      have hdec := rem_decrease lt S pageSize hp htrans hirr hS c hlen_eq
      rw [hc] at hdec
      have hlt : (S.filter (fun x =>
          lt ((serveSorted lt S pageSize c).getLastD "") x)).length < n := by omega
      have h1 : ((S.filter (fun x =>
            lt ((serveSorted lt S pageSize c).getLastD "") x)).length + pageSize) / pageSize
          = (S.filter (fun x =>
            lt ((serveSorted lt S pageSize c).getLastD "") x)).length / pageSize + 1 :=
        Nat.add_div_right _ (by omega)
      have h2 : ((S.filter (fun x =>
            lt ((serveSorted lt S pageSize c).getLastD "") x)).length + pageSize) / pageSize
          ≤ n / pageSize := Nat.div_le_div_right hdec
      have hstep : (S.filter (fun x =>
          lt ((serveSorted lt S pageSize c).getLastD "") x)).length / pageSize + 1
            ≤ n / pageSize := by
        rw [← h1]
        exact h2
      have hnp : n / pageSize ≤ f := Nat.succ_le_succ_iff.mp hfuel
      have hfuel2 : (S.filter (fun x =>
          lt ((serveSorted lt S pageSize c).getLastD "") x)).length / pageSize + 1 ≤ f :=
        le_trans hstep hnp
      obtain ⟨ents, m2, heq, hm1, hm2⟩ := ih _ hlt
        ((serveSorted lt S pageSize c).getLastD "") rfl f hfuel2 (ci + 1)
        (processResponse pageSize ep qt u k (mkPage qt (serveSorted lt S pageSize c))).2
        (acc ++ (processResponse pageSize ep qt u k
          (mkPage qt (serveSorted lt S pageSize c))).1.entities)
        (dones ++ [true])
      refine ⟨ents, m2 + 1, ?_, Nat.succ_le_succ (Nat.zero_le _),
        Nat.succ_le_succ (le_trans hm2 hstep)⟩
      rw [hcur, heq]
      have hl : (dones ++ [true]) ++ List.replicate m2 true
          = dones ++ List.replicate (m2 + 1) true := by
        rw [List.append_assoc]
        rfl
      have hnat : ci + 1 + m2 = ci + (m2 + 1) := by omega
      rw [hl, hnat]
    · -- partial page: exit with one round-trip
      rw [if_neg]
      · exact ⟨acc ++ (processResponse pageSize ep qt u k
          (mkPage qt (serveSorted lt S pageSize c))).1.entities, 1, rfl,
          le_refl 1, Nat.succ_le_succ (Nat.zero_le _)⟩
      · intro hcon
        rw [hmore, decide_eq_false hfull] at hcon
        exact Bool.noConfusion hcon.1

/-- Claim C4 (amended): the pagination loop terminates.  (1) For every server
that respects `id_gt` monotonically over a finite id set `S` (any transitive,
irreflexive id order with the empty string minimal, `S` listed in ascending
order), a task completes successfully in `m` round-trips with
`1 ≤ m ≤ ceil(|S| / pageSize) + 1`, each round-trip making exactly one
transport call and one `Done(true)` report.  (2) A server returning the same
single id on every call causes exactly ONE round-trip when `pageSize ≥ 2`
(the single-item page is partial, so `hasMore` is false) — not two as the
claim stated — and (3) exactly two round-trips when `pageSize = 1` (the
second page repeats the cursor, triggering the `nextCursor == current`
exit); in both cases there is no infinite loop. -/
theorem c4_pagination_terminates :
    (∀ (lt : String → String → Bool) (S : List String) (pageSize maxRetries : Nat)
        (ep qt : String) (u : Nat → String) (start : String),
      1 ≤ pageSize →
      (∀ a b c, lt a b = true → lt b c = true → lt a c = true) →
      (∀ a, lt a a = false) →
      (∀ a, lt a "" = false) →
      S.Pairwise (fun a b => lt a b = true) →
      ∃ (ents : List Entity) (m : Nat),
        executeQueryWithPagination (sortedOracle lt S pageSize qt) pageSize maxRetries
            ep qt u (S.length / pageSize + 2) start 0 0 [] []
          = some (Except.ok ents, List.replicate m true, m)
        ∧ 1 ≤ m ∧ m ≤ (S.length + pageSize - 1) / pageSize + 1)
    ∧ (∀ (pageSize maxRetries : Nat) (ep : String) (u : Nat → String) (fuel : Nat),
      2 ≤ pageSize →
      (executeQueryWithPagination stuckOracle pageSize maxRetries ep "tokens" u
          (fuel + 1) "" 0 0 [] []).map (fun r => (r.2.1).length) = some 1)
    ∧ (∀ (maxRetries : Nat) (ep : String) (u : Nat → String) (fuel : Nat),
      (executeQueryWithPagination stuckOracle 1 maxRetries ep "tokens" u
          (fuel + 2) "" 0 0 [] []).map (fun r => (r.2.1).length) = some 2) := by
  refine ⟨?_, ?_, ?_⟩
  · intro lt S pageSize maxRetries ep qt u start hp htrans hirr hempty hS
    have hn : (S.filter (fun x => lt start x)).length ≤ S.length :=
      List.length_filter_le _ _
    have h1 : (S.filter (fun x => lt start x)).length / pageSize
        ≤ S.length / pageSize := Nat.div_le_div_right hn
    have hfuel : (S.filter (fun x => lt start x)).length / pageSize + 1
        ≤ S.length / pageSize + 2 := by omega
    have hbound : (S.filter (fun x => lt start x)).length / pageSize + 1
        ≤ (S.length + pageSize - 1) / pageSize + 1 := by
      have h2 : S.length / pageSize ≤ (S.length + pageSize - 1) / pageSize :=
        Nat.div_le_div_right (by omega)
      omega
    obtain ⟨ents, m, heq, hm1, hm2⟩ := sorted_loop lt htrans hirr hempty S hS
      pageSize hp maxRetries ep qt u _ start rfl (S.length / pageSize + 2) hfuel
      0 0 [] []
    refine ⟨ents, m, ?_, hm1, le_trans hm2 hbound⟩
    rw [heq]
    simp
  · intro pageSize maxRetries ep u fuel hp2
    rw [exec_step_ok stuckOracle pageSize maxRetries ep "tokens" u fuel "" 0 0 [] []
      (mkPage "tokens" ["a"]) rfl]
    rw [if_neg]
    · rfl
    · intro hcon
      have hmore := (processResponse_mkPage pageSize ep "tokens" u 0 ["a"]).2.2
      rw [hmore] at hcon
      have := of_decide_eq_true hcon.1
      simp at this
      omega
  · intro maxRetries ep u fuel
    have hcur1 : (processResponse 1 ep "tokens" u 0 (mkPage "tokens" ["a"])).1.nextCursor
        = "a" := (processResponse_mkPage 1 ep "tokens" u 0 ["a"]).2.1
    rw [exec_step_ok stuckOracle 1 maxRetries ep "tokens" u (fuel + 1) "" 0 0 [] []
      (mkPage "tokens" ["a"]) rfl]
    rw [if_pos ⟨rfl, by rw [hcur1]; decide, by rw [hcur1]; decide⟩]
    rw [hcur1]
    rw [exec_step_ok stuckOracle 1 maxRetries ep "tokens" u fuel "a" (0 + 1)
      (processResponse 1 ep "tokens" u 0 (mkPage "tokens" ["a"])).2
      ([] ++ (processResponse 1 ep "tokens" u 0 (mkPage "tokens" ["a"])).1.entities)
      ([] ++ [true]) (mkPage "tokens" ["a"]) rfl]
    rw [if_neg]
    · rfl
    · intro hcon
      exact hcon.2.1 ((processResponse_mkPage 1 ep "tokens" u _ ["a"]).2.1)

/-- Counterexample to claim C4's stuck-server clause as stated: with the
default-style `pageSize = 2` and a server returning `[ \x7bid:"a"\x7d ]` on every
call, the task completes after exactly ONE round-trip, not two. -/
theorem c4_counterexample :
    (executeQueryWithPagination stuckOracle 2 3 "E1" "tokens" uuidSupply 5
        "" 0 0 [] []).map (fun r => (r.2.1).length) = some 1
    ∧ (1 : Nat) ≠ 2 := ⟨rfl, by decide⟩

/-- Witness for C4 at concrete inputs: the length order on the id set
`a, ab, abc` with page size 2 (three ids, at most `ceil(3/2) + 1 = 3`
round-trips), and the stuck server at page sizes 2 and 1. -/
theorem c4_witness :
    (∃ (ents : List Entity) (m : Nat),
      executeQueryWithPagination (sortedOracle ltLen ["a", "ab", "abc"] 2 "tokens")
          2 3 "E1" "tokens" uuidSupply ((["a", "ab", "abc"] : List String).length / 2 + 2)
          "" 0 0 [] []
        = some (Except.ok ents, List.replicate m true, m)
      ∧ 1 ≤ m ∧ m ≤ ((["a", "ab", "abc"] : List String).length + 2 - 1) / 2 + 1)
    ∧ (executeQueryWithPagination stuckOracle 2 3 "E1" "tokens" uuidSupply
        (4 + 1) "" 0 0 [] []).map (fun r => (r.2.1).length) = some 1
    ∧ (executeQueryWithPagination stuckOracle 1 3 "E1" "tokens" uuidSupply
        (3 + 2) "" 0 0 [] []).map (fun r => (r.2.1).length) = some 2 :=
  ⟨c4_pagination_terminates.1 ltLen ["a", "ab", "abc"] 2 3 "E1" "tokens" uuidSupply ""
      (by decide)
      (fun a b c h1 h2 => by
        simp only [ltLen, decide_eq_true_eq] at h1 h2 ⊢
        omega)
      (fun a => by simp [ltLen])
      (fun a => by simp [ltLen])
      (by norm_num [List.pairwise_cons, ltLen]; decide),
   c4_pagination_terminates.2.1 2 3 "E1" uuidSupply 4 (by decide),
   c4_pagination_terminates.2.2 3 "E1" uuidSupply 3⟩
